import Mathlib

/-!
Verification of the exchange-agnostic market-data retrieval layer.

This file gives a shallow embedding, in Lean 4, of the core of the
`market_data` package and of the shared HTTP transport
(`src/binance_client/base.py`), and proves / refutes the frozen claims
about it.

Modelling conventions:
* Python `int` is `Int`, Python `float` is `PyFloat` (a rational number or
  NaN) or, where NaN semantics is irrelevant, plain `Rat`.
* A pandas `DataFrame` is a `Frame`: an ordered column list plus rows of
  cell values (`PyVal`).  `pd.DataFrame()` is the frame with no columns
  and no rows.
* Exchange HTTP traffic is mocked exactly like the test suite of the
  repository does: a pagination loop consumes a list of pre-programmed pages,
  one page per HTTP request, and the embedding of the loop recurses on
  that list.  Numeric strings arriving from the wire ("50000.00",
  "1700000000000") are modelled by their parsed numeric values, since the
  adapters immediately convert them with `float()` / `int()`.
* Fallible Python code (raising `ValueError`, `TypeError`, `RuntimeError`,
  `ZeroDivisionError`) is embedded as `Except`.
-/

/-- Python float: a finite value (modelled exactly as a rational) or NaN. -/
inductive PyFloat where
  | num (q : Rat)
  | nan
deriving DecidableEq, Repr, Inhabited

/-- Python comparison `x != 0` on a float (`nan != 0` is `True`). -/
def PyFloat.ne0 : PyFloat → Bool
  | .num q => decide (q ≠ 0)
  | .nan => true

/-- Python float division, which raises `ZeroDivisionError` when the
divisor is (positive or negative) zero, and otherwise propagates NaN. -/
def pyDiv : PyFloat → PyFloat → Except String PyFloat
  | x, .num q =>
    if q = 0 then .error "float division by zero"
    else match x with
      | .num p => .ok (.num (p / q))
      | .nan => .ok .nan
  | _, .nan => .ok .nan

/-- Total version of float division used where the source code guards the
divisor; agreement with `pyDiv` is proved where it matters. -/
def pyDivT : PyFloat → PyFloat → PyFloat
  | .num p, .num q => .num (p / q)
  | _, _ => .nan

/-- One cell of a canonical table: an int, a float, a string, a UTC
timestamp (millisecond epoch, as produced by `pd.to_datetime`), the null
sentinels `None` / `NaT`. -/
inductive PyVal where
  | vInt (n : Int)
  | vFloat (x : PyFloat)
  | vStr (s : String)
  | vTime (ms : Int)
  | vNone
  | vNaT
deriving DecidableEq, Repr

/-- A pandas DataFrame: ordered column names and rows of cells. -/
structure Frame where
  cols : List String
  rows : List (List PyVal)
deriving DecidableEq, Repr

/-- The frame produced by bare `pd.DataFrame()`: no columns, no rows. -/
def Frame.empty : Frame := ⟨[], []⟩

/-- Column selection `df[cs]` (all selected columns exist at every use
site; a missing column yields the `None` cell rather than an exception). -/
def Frame.select (fr : Frame) (cs : List String) : Frame :=
  ⟨cs, fr.rows.map fun r =>
    cs.map fun c =>
      match fr.cols.indexOf? c with
      | some i => r.getD i .vNone
      | none => .vNone⟩

/-! ### Sorting by an integer key

Python `list.sort(key=...)` and pandas `sort_values` are modelled by
insertion sort on an integer key; the claims only use that the result is
ascending and a permutation of the input. -/

/-- Insert `a` into `l` before the first element of larger-or-equal key. -/
def insertByKey (key : α → Int) (a : α) : List α → List α
  | [] => [a]
  | b :: l => if key a ≤ key b then a :: b :: l else b :: insertByKey key a l

/-- Sort a list ascending by an integer key (insertion sort). -/
def sortByKey (key : α → Int) : List α → List α
  | [] => []
  | a :: l => insertByKey key a (sortByKey key l)

/-- Ascending (non-decreasing) order of keys along a list. -/
def AscendingBy (key : α → Int) (l : List α) : Prop :=
  l.Pairwise fun x y => key x ≤ key y

/-! ### Canonical schema model (`src/market_data/domain/models.py`) -/

/-- The closed enumeration of market-data kinds (`DataType`). -/
inductive DataType where
  | ohlcv
  | indexPrice
  | markPrice
  | fundingRate
  | openInterest
  | longShortRt
  | topLsAccounts
  | topLsPositions
  | takerBuySell
deriving DecidableEq, Repr

/-- The canonical ordered column list of each data type (`_SCHEMAS`). -/
def DataType.columns : DataType → List String
  | .ohlcv =>
      ["timestamp", "open", "high", "low", "close", "volume",
       "close_time", "quote_volume", "trades",
       "taker_buy_volume", "taker_buy_quote_volume"]
  | .indexPrice => ["timestamp", "open", "high", "low", "close"]
  | .markPrice => ["timestamp", "open", "high", "low", "close"]
  | .fundingRate => ["timestamp", "symbol", "funding_rate", "mark_price"]
  | .openInterest =>
      ["timestamp", "symbol", "open_interest", "open_interest_value"]
  | .longShortRt =>
      ["timestamp", "symbol", "long_short_ratio", "long_account", "short_account"]
  | .topLsAccounts =>
      ["timestamp", "symbol", "long_short_ratio", "long_account", "short_account"]
  | .topLsPositions =>
      ["timestamp", "symbol", "long_short_ratio", "long_account", "short_account"]
  | .takerBuySell => ["timestamp", "buy_sell_ratio", "buy_vol", "sell_vol"]

/-- `DataType.uses_interval` (`self in _INTERVAL_TYPES`). -/
def DataType.uses_interval : DataType → Bool
  | .ohlcv | .indexPrice | .markPrice => true
  | _ => false

/-- `DataType.uses_period` (`self in _PERIOD_TYPES`). -/
def DataType.uses_period : DataType → Bool
  | .openInterest | .longShortRt | .topLsAccounts
  | .topLsPositions | .takerBuySell => true
  | _ => false

/-! ### HTTP transport (`src/binance_client/base.py`, `BinanceBaseClient._request`)

One mocked HTTP attempt either yields a response (status code and body
text) or raises a `requests` network exception with a message.  The
`_request` retry loop is embedded as a recursion over the list of mocked
attempt outcomes, consuming one event per request issued, exactly like the
tests of the repository drive it with `side_effect` lists.  `RunResult.backoffs`
records the `2 ** (attempt + 1)` exponential-backoff sleeps in order (the
small fixed `rate_limit_sleep` after a success is not recorded).  The run
is `none` when the loop would issue more requests than mocked events
exist. -/

inductive HttpEvent where
  | resp (status : Nat) (body : String)
  | netErr (msg : String)
deriving DecidableEq, Repr

structure RunResult where
  outcome : Except String String
  requests : Nat
  backoffs : List Nat
deriving Repr

/-- One pass of the `for attempt in range(max_retries)` loop of
`_request`: `rem` attempts remain, `a` is the current attempt index. -/
def requestGo (url : String) (maxRetries : Nat) :
    Nat → Nat → List HttpEvent → Option RunResult
  | 0, _, _ =>
    some ⟨.error s!"Max retries ({maxRetries}) exceeded for {url}", 0, []⟩
  | _ + 1, _, [] => none
  | rem + 1, a, e :: es =>
    match e with
    | .resp status body =>
      if status = 200 then some ⟨.ok body, 1, []⟩
      else if status = 429 then
        match requestGo url maxRetries rem (a + 1) es with
        | some r => some ⟨r.outcome, r.requests + 1, 2 ^ (a + 1) :: r.backoffs⟩
        | none => none
      else if status = 418 then
        some ⟨.error s!"IP banned by Binance: {body}", 1, []⟩
      else
        some ⟨.error s!"HTTP {status}: {body}", 1, []⟩
    | .netErr msg =>
      if a = maxRetries - 1 then
        some ⟨.error s!"Request failed after {maxRetries} retries: {msg}", 1, []⟩
      else
        match requestGo url maxRetries rem (a + 1) es with
        | some r => some ⟨r.outcome, r.requests + 1, 2 ^ (a + 1) :: r.backoffs⟩
        | none => none

/-- `BinanceBaseClient._request(url, params)` under a mocked event list. -/
def requestRun (maxRetries : Nat) (url : String) (events : List HttpEvent) :
    Option RunResult :=
  requestGo url maxRetries maxRetries 0 events

/-! ### Source factory (`src/market_data/__init__.py`) -/

/-- The adapter classes the lazily-populated `_REGISTRY` actually
contains: only `binance` and `kraken` are registered. -/
inductive AdapterCls where
  | binanceFuturesSource
  | krakenFuturesSource
deriving DecidableEq, Repr

/-- Python `str.lower()` on the ASCII exchange names in play. -/
def pyLower (s : String) : List Char := s.toList.map Char.toLower

/-- `_REGISTRY.get(name)` after `_ensure_registry()`. -/
def registryLookup (s : List Char) : Option AdapterCls :=
  if s = "binance".toList then some .binanceFuturesSource
  else if s = "kraken".toList then some .krakenFuturesSource
  else none

/-- `create_source(exchange)`: case-insensitive lookup; unknown names
raise `ValueError` listing `", ".join(sorted(_REGISTRY))`. -/
def create_source (exchange : String) : Except String AdapterCls :=
  match registryLookup (pyLower exchange) with
  | some cls => .ok cls
  | none =>
    .error ("Unsupported exchange: \x27" ++ exchange ++
      "\x27. Supported: binance, kraken")

/-! ### Binance adapter (`src/market_data/infra/binance.py`)

A raw Binance kline array
`[openTime, open, high, low, close, volume, closeTime, quoteVolume,
trades, takerBuyVolume, takerBuyQuoteVolume, ignore]` is modelled by a
structure with the numeric-string entries already parsed (field `openP`
is the `open` entry, and so on). -/

structure BinanceKline where
  openTime : Int
  openP : PyFloat
  highP : PyFloat
  lowP : PyFloat
  closeP : PyFloat
  volume : PyFloat
  closeTime : Int
  quoteVolume : PyFloat
  trades : Int
  takerBuyVolume : PyFloat
  takerBuyQuoteVolume : PyFloat
  ignored : String
deriving DecidableEq, Repr, Inhabited

/-- Drop a named column, `df.drop(columns=[c])`. -/
def Frame.dropCol (fr : Frame) (c : String) : Frame :=
  match fr.cols.indexOf? c with
  | some i => ⟨fr.cols.eraseIdx i, fr.rows.map (·.eraseIdx i)⟩
  | none => fr

/-- `BinanceFuturesSource._klines_to_df(raw, include_extra)`. -/
def binance_klines_to_df (raw : List BinanceKline) (includeExtra : Bool) :
    Frame :=
  if raw.isEmpty then Frame.empty
  else
    let df : Frame :=
      ⟨["timestamp", "open", "high", "low", "close", "volume",
        "close_time", "quote_volume", "trades",
        "taker_buy_volume", "taker_buy_quote_volume", "_ignore"],
       raw.map fun k =>
         [.vTime k.openTime, .vFloat k.openP, .vFloat k.highP,
          .vFloat k.lowP, .vFloat k.closeP, .vFloat k.volume,
          .vTime k.closeTime, .vFloat k.quoteVolume, .vInt k.trades,
          .vFloat k.takerBuyVolume, .vFloat k.takerBuyQuoteVolume,
          .vStr k.ignored]⟩
    let df := df.dropCol "_ignore"
    if includeExtra then df
    else df.select ["timestamp", "open", "high", "low", "close"]

/-- The `while current < end_ms` loop of
`BinanceFuturesSource._paginate_klines`, one mocked page per request;
`none` means the loop would request more pages than were mocked.  The
returned `Nat` counts HTTP requests issued. -/
def binance_paginate_klines :
    List (List BinanceKline) → Int → Int → Nat →
    Option (List BinanceKline × Nat)
  | pages, current, endMs, limit =>
    if current < endMs then
      match pages with
      | [] => none
      | p :: rest =>
        if p.isEmpty then some ([], 1)
        else if p.length < limit then some (p, 1)
        else
          match binance_paginate_klines rest
              ((p.getLastD default).closeTime + 1) endMs limit with
          | some (tl, n) => some (p ++ tl, n + 1)
          | none => none
    else some ([], 0)

/-- `BinanceFuturesSource._fetch_ohlcv` under mocked pages (symbol and
interval only select the endpoint and do not affect row handling). -/
def binance_fetch_ohlcv (pages : List (List BinanceKline))
    (startMs endMs : Int) : Option (Frame × Nat) :=
  (binance_paginate_klines pages startMs endMs 1500).map
    fun r => (binance_klines_to_df r.1 true, r.2)

/-! ### Bybit adapter (`src/market_data/infra/bybit.py`) -/

/-- A Bybit kline row `[startTime, open, high, low, close, volume,
turnover]`, numeric strings already parsed. -/
structure BybitKline where
  startTime : Int
  openP : PyFloat
  highP : PyFloat
  lowP : PyFloat
  closeP : PyFloat
  volume : PyFloat
  turnover : PyFloat
deriving DecidableEq, Repr, Inhabited

/-- The `while current_end > start_ms` loop of
`BybitFuturesSource._paginate_klines` (pages arrive newest-first). -/
def bybit_klines_loop :
    List (List BybitKline) → Int → Int → Nat →
    Option (List BybitKline × Nat)
  | pages, startMs, currentEnd, limit =>
    if currentEnd > startMs then
      match pages with
      | [] => none
      | p :: rest =>
        if p.isEmpty then some ([], 1)
        else if p.length < limit then some (p, 1)
        else
          match bybit_klines_loop rest startMs
              ((p.getLastD default).startTime - 1) limit with
          | some (tl, n) => some (p ++ tl, n + 1)
          | none => none
    else some ([], 0)

/-- `BybitFuturesSource._paginate_klines`: the loop above followed by
`all_data.sort(key=lambda x: int(x[0]))`. -/
def bybit_paginate_klines (pages : List (List BybitKline))
    (startMs endMs : Int) (limit : Nat) : Option (List BybitKline × Nat) :=
  (bybit_klines_loop pages startMs endMs limit).map
    fun r => (sortByKey (·.startTime) r.1, r.2)

/-- `BybitFuturesSource._klines_to_ohlcv_df`: dict construction puts the
canonical columns in order, `close_time` is `None`, `trades` is `0`, the
taker fields are NaN, then `df[DataType.OHLCV.columns]` is selected. -/
def bybit_klines_to_ohlcv_df (raw : List BybitKline) : Frame :=
  if raw.isEmpty then Frame.empty
  else
    (Frame.mk
      ["timestamp", "open", "high", "low", "close", "volume",
       "close_time", "quote_volume", "trades",
       "taker_buy_volume", "taker_buy_quote_volume"]
      (raw.map fun k =>
        [.vTime k.startTime, .vFloat k.openP, .vFloat k.highP,
         .vFloat k.lowP, .vFloat k.closeP, .vFloat k.volume,
         .vNone, .vFloat k.turnover, .vInt 0,
         .vFloat .nan, .vFloat .nan])).select DataType.ohlcv.columns

/-- `BybitFuturesSource._fetch_ohlcv` under mocked pages (default
`limit=200`). -/
def bybit_fetch_ohlcv (pages : List (List BybitKline))
    (startMs endMs : Int) : Option (Frame × Nat) :=
  (bybit_paginate_klines pages startMs endMs 200).map
    fun r => (bybit_klines_to_ohlcv_df r.1, r.2)

/-! ### OKX adapter (`src/market_data/infra/okx.py`) -/

/-- An OKX kline row `[ts, o, h, l, c, vol, volCcy, volCcyQuote, confirm]`,
numeric strings already parsed (`ts` via `int(...)`). -/
structure OkxKline where
  ts : Int
  openP : PyFloat
  highP : PyFloat
  lowP : PyFloat
  closeP : PyFloat
  volume : PyFloat
  volCcy : PyFloat
  volCcyQuote : PyFloat
  confirm : String
deriving DecidableEq, Repr, Inhabited

/-- The `while True` loop of `OkxFuturesSource._paginate_klines`
(pages arrive newest-first; the page is accumulated before the
`oldest_ts <= start_ms or len(data) < limit` break test). -/
def okx_klines_loop :
    List (List OkxKline) → Int → Nat → Option (List OkxKline × Nat)
  | pages, startMs, limit =>
    match pages with
    | [] => none
    | p :: rest =>
      if p.isEmpty then some ([], 1)
      else
        let oldest := (p.getLastD default).ts
        if oldest ≤ startMs ∨ p.length < limit then some (p, 1)
        else
          match okx_klines_loop rest startMs limit with
          | some (tl, n) => some (p ++ tl, n + 1)
          | none => none

/-- `OkxFuturesSource._paginate_klines`: the loop followed by
`all_data.sort(key=lambda r: int(r[0]))`.  (The `after` cursor only
shapes the request parameters, not the row handling.) -/
def okx_paginate_klines (pages : List (List OkxKline)) (startMs : Int)
    (limit : Nat) : Option (List OkxKline × Nat) :=
  (okx_klines_loop pages startMs limit).map
    fun r => (sortByKey (·.ts) r.1, r.2)

/-- `OkxFuturesSource._klines_to_ohlcv_df`: `close_time` is a copy of
`timestamp`, `quote_volume` is `volCcyQuote`, `trades` is `0`, the taker
fields are NaN, then the canonical columns are selected. -/
def okx_klines_to_ohlcv_df (raw : List OkxKline) : Frame :=
  if raw.isEmpty then Frame.empty
  else
    (Frame.mk
      ["timestamp", "open", "high", "low", "close", "volume",
       "volCcy", "quote_volume", "confirm", "close_time", "trades",
       "taker_buy_volume", "taker_buy_quote_volume"]
      (raw.map fun k =>
        [.vTime k.ts, .vFloat k.openP, .vFloat k.highP, .vFloat k.lowP,
         .vFloat k.closeP, .vFloat k.volume, .vFloat k.volCcy,
         .vFloat k.volCcyQuote, .vStr k.confirm, .vTime k.ts, .vInt 0,
         .vFloat .nan, .vFloat .nan])).select DataType.ohlcv.columns

/-- `OkxFuturesSource._fetch_ohlcv` under mocked pages (default
`limit=100`). -/
def okx_fetch_ohlcv (pages : List (List OkxKline)) (startMs : Int) :
    Option (Frame × Nat) :=
  (okx_paginate_klines pages startMs 100).map
    fun r => (okx_klines_to_ohlcv_df r.1, r.2)

/-! ### Coinbase adapter (`src/market_data/infra/coinbase.py`) -/

/-- A Coinbase candle `[time, low, high, open, close, volume]`. -/
structure CbCandle where
  time : Int
  lowP : PyFloat
  highP : PyFloat
  openP : PyFloat
  closeP : PyFloat
  volume : PyFloat
deriving DecidableEq, Repr, Inhabited

/-- `CoinbaseSource._candles_to_df`: sort ascending by `time` (Coinbase
returns descending), `close_time` is `NaT`, `quote_volume` and the taker
fields are NaN, `trades` is `0`, then canonical columns selected. -/
def coinbase_candles_to_df (raw : List CbCandle) : Frame :=
  if raw.isEmpty then Frame.empty
  else
    let sorted := sortByKey (·.time) raw
    ⟨DataType.ohlcv.columns,
     sorted.map fun c =>
       [.vTime c.time, .vFloat c.openP, .vFloat c.highP, .vFloat c.lowP,
        .vFloat c.closeP, .vFloat c.volume, .vNaT, .vFloat .nan,
        .vInt 0, .vFloat .nan, .vFloat .nan]⟩

/-! ### Upbit adapter (`src/market_data/infra/upbit.py`) -/

/-- An Upbit candle record; `candleTimeUtc` models the parsed
`candle_date_time_utc` field (the sort key of the result frame) and
`tsMs` the raw `timestamp` field used by the pagination filter. -/
structure UpbitCandle where
  candleTimeUtc : Int
  openingPrice : PyFloat
  highPrice : PyFloat
  lowPrice : PyFloat
  tradePrice : PyFloat
  accVolume : PyFloat
  accPrice : PyFloat
  tsMs : Int
deriving DecidableEq, Repr, Inhabited

/-- `UpbitSource._candles_to_df`: build the canonical columns
(`close_time` and taker fields NaN, `trades` 0), then
`sort_values("timestamp")`. -/
def upbit_candles_to_df (raw : List UpbitCandle) : Frame :=
  if raw.isEmpty then Frame.empty
  else
    let sorted := sortByKey (·.candleTimeUtc) raw
    ⟨DataType.ohlcv.columns,
     sorted.map fun c =>
       [.vTime c.candleTimeUtc, .vFloat c.openingPrice,
        .vFloat c.highPrice, .vFloat c.lowPrice, .vFloat c.tradePrice,
        .vFloat c.accVolume, .vFloat .nan, .vFloat c.accPrice,
        .vInt 0, .vFloat .nan, .vFloat .nan]⟩

/-! ### Kraken adapter (`src/market_data/infra/kraken.py`) -/

/-- One record of the Kraken Futures `/historicalfundingrates` payload
(`timestamp` already converted to a millisecond epoch by
`pd.to_datetime`). -/
structure KrakenRate where
  ts : Int
  fundingRate : PyFloat
  relativeFundingRate : PyFloat
deriving DecidableEq, Repr, Inhabited

/-- The Kraken Futures response envelope: a `result` field and the
`rates` array. -/
structure KrakenFundingResp where
  result : String
  rates : List KrakenRate
deriving Repr

/-- `KrakenFuturesSource._fetch_funding_rate`: ONE unpaginated request
(the function receives the single mocked response), an envelope check,
then a local filter keeping timestamps in `[start_dt, end_dt)`;
`mark_price` is NaN and `symbol` is echoed into every row. -/
def kraken_fetch_funding_rate (resp : KrakenFundingResp) (symbol : String)
    (startMs endMs : Int) : Except String Frame :=
  if resp.result ≠ "success" then
    .error "Kraken Futures API error"
  else
    let rates := resp.rates
    if rates.isEmpty then .ok Frame.empty
    else
      let filtered := rates.filter fun r =>
        startMs ≤ r.ts && r.ts < endMs
      if filtered.isEmpty then .ok Frame.empty
      else
        .ok ⟨DataType.fundingRate.columns,
          filtered.map fun r =>
            [.vTime r.ts, .vStr symbol, .vFloat r.fundingRate,
             .vFloat .nan]⟩

/-! ### Bybit long/short ratio (`BybitFuturesSource._fetch_long_short_ratio`) -/

/-- One record of the Bybit `/v5/market/account-ratio` payload, the
`buyRatio` / `sellRatio` strings already parsed by `float(...)`. -/
structure BybitLsrItem where
  symbol : String
  buyRatio : PyFloat
  sellRatio : PyFloat
  timestamp : Int
deriving DecidableEq, Repr, Inhabited

/-- The request parameters `_fetch_long_short_ratio` sends (the `limit`
is the hard-coded `500`; there are no start or end time parameters). -/
structure BybitLsrParams where
  category : String
  symbol : String
  period : String
  limit : Nat
deriving DecidableEq, Repr

def bybit_lsr_params (symbol period : String) : BybitLsrParams :=
  ⟨"linear", symbol, period, 500⟩

/-- One converted long/short-ratio row. -/
structure LsrRow where
  ts : Int
  symbol : String
  ratio : PyFloat
  longAcc : PyFloat
  shortAcc : PyFloat
deriving DecidableEq, Repr, Inhabited

/-- Row construction
`buy_ratio / sell_ratio if sell_ratio != 0 else float("nan")`,
with the guarded division total (`pyDivT`). -/
def bybit_lsr_row (it : BybitLsrItem) : LsrRow :=
  ⟨it.timestamp, it.symbol,
   if it.sellRatio.ne0 then pyDivT it.buyRatio it.sellRatio else .nan,
   it.buyRatio, it.sellRatio⟩

/-- The same row construction with Python division semantics made
explicit (`pyDiv` raises `ZeroDivisionError` on a zero divisor). -/
def bybit_lsr_row_checked (it : BybitLsrItem) : Except String LsrRow :=
  if it.sellRatio.ne0 then
    (pyDiv it.buyRatio it.sellRatio).map fun r =>
      ⟨it.timestamp, it.symbol, r, it.buyRatio, it.sellRatio⟩
  else
    .ok ⟨it.timestamp, it.symbol, .nan, it.buyRatio, it.sellRatio⟩

/-- The row-building loop of `_fetch_long_short_ratio` under Python
division semantics: rows accumulate in order and the first exception
propagates. -/
def bybit_lsr_rows_checked : List BybitLsrItem → Except String (List LsrRow)
  | [] => .ok []
  | it :: rest =>
    match bybit_lsr_row_checked it, bybit_lsr_rows_checked rest with
    | .ok r, .ok rs => .ok (r :: rs)
    | .error e, _ => .error e
    | .ok _, .error e => .error e

/-- The cells of one long/short-ratio table row, in canonical column
order. -/
def lsrCells (r : LsrRow) : List PyVal :=
  [.vTime r.ts, .vStr r.symbol, .vFloat r.ratio,
   .vFloat r.longAcc, .vFloat r.shortAcc]

/-- `BybitFuturesSource._fetch_long_short_ratio` under a single mocked
response (the function issues exactly one request; `startTime` and
`endTime` are accepted, as in the source signature, but never used). -/
def bybit_fetch_long_short_ratio (items : List BybitLsrItem)
    (startTime endTime : Int) : Frame :=
  if items.isEmpty then Frame.empty
  else
    let rows := sortByKey (·.ts) (items.map bybit_lsr_row)
    ⟨DataType.longShortRt.columns, rows.map lsrCells⟩

/-! ### Time conversion (`src/binance_client/base.py`, `to_milliseconds`)

`datetime.strptime` with `"%Y-%m-%d %H:%M:%S"` / `"%Y-%m-%d"` is embedded
following the CPython `_strptime` regexes: `%Y` is exactly four digits,
every other numeric field is the whole one-or-two digit run at its
position (`%m` matches `1[0-2]|0[1-9]|[1-9]`, and so on; digit fields are
modelled over the ASCII digits the repository feeds this function), the
`-` and `:` separators are literal while the whitespace in the format is
compiled to the regex `\s+` (any non-empty run of Unicode whitespace
separates the date from the time), the whole string must be consumed,
and the parsed fields must then form a valid `datetime` (`1 <= year`,
day within the month, seconds at most 59), else `ValueError` falls
through to the next format.  Timestamps are exact:
`int(dt.timestamp() * 1000)` on whole seconds is the civil-calendar
millisecond epoch. -/

/-- A Python `datetime` down to seconds; `utcOffsetMin` is the fixed UTC
offset of `tzinfo` in minutes, `none` when the datetime is naive. -/
structure PyDateTime where
  year : Nat
  month : Nat
  day : Nat
  hour : Nat
  minute : Nat
  second : Nat
  utcOffsetMin : Option Int
deriving DecidableEq, Repr, Inhabited

/-- Numeric value of a digit run. -/
def natOfDigits (cs : List Char) : Nat :=
  cs.foldl (fun a c => a * 10 + (c.toNat - 48)) 0

/-- Match one `strptime` numeric field: the maximal digit run at the
front must be one or two digits long and its value must lie in
`[lo, hi]`; returns the value and the remaining characters. -/
def parseField (lo hi : Nat) (s : List Char) : Option (Nat × List Char) :=
  let r := s.takeWhile (·.isDigit)
  let v := natOfDigits r
  if 1 ≤ r.length ∧ r.length ≤ 2 ∧ lo ≤ v ∧ v ≤ hi then
    some (v, s.dropWhile (·.isDigit))
  else none

/-- Match a literal separator character. -/
def expectChar (c : Char) : List Char → Option (List Char)
  | x :: rest => if x = c then some rest else none
  | [] => none

/-- Match the `%Y-%m-%d` prefix (year exactly four digits). -/
def parseYMD (s : List Char) : Option (Nat × Nat × Nat × List Char) :=
  let y := s.take 4
  if y.length = 4 ∧ y.all (·.isDigit) then
    match expectChar (Char.ofNat 45) (s.drop 4) with
    | none => none
    | some s1 =>
      match parseField 1 12 s1 with
      | none => none
      | some (m, s2) =>
        match expectChar (Char.ofNat 45) s2 with
        | none => none
        | some s3 =>
          match parseField 1 31 s3 with
          | none => none
          | some (d, s4) => some (natOfDigits y, m, d, s4)
  else none

/-- Python regex `\s` under Unicode matching: the characters
`Py_UNICODE_ISSPACE` accepts — 0x09-0x0D, 0x1C-0x1F, the space, 0x85,
0xA0, 0x1680, 0x2000-0x200A, 0x2028, 0x2029, 0x202F, 0x205F and
0x3000. -/
def isPySpace (c : Char) : Bool :=
  let n := c.toNat
  (9 ≤ n && n ≤ 13) || (28 ≤ n && n ≤ 31) || n == 32 || n == 133 ||
    n == 160 || n == 5760 || (8192 ≤ n && n ≤ 8202) || n == 8232 ||
    n == 8233 || n == 8239 || n == 8287 || n == 12288

/-- Match the `\s+` that CPython `_strptime` compiles format whitespace
into: at least one whitespace character, consuming the whole run (exact
here, since the token after it is a digit field and no whitespace
character is a digit). -/
def matchSpaceRun : List Char → Option (List Char)
  | x :: rest => if isPySpace x then some (rest.dropWhile isPySpace) else none
  | [] => none

/-- Match the whitespace-separated `%H:%M:%S` suffix of the datetime
format (the separator is any non-empty whitespace run, per `\s+`). -/
def parseHMS (s : List Char) : Option (Nat × Nat × Nat × List Char) :=
  match matchSpaceRun s with
  | none => none
  | some s1 =>
    match parseField 0 23 s1 with
    | none => none
    | some (hh, s2) =>
      match expectChar (Char.ofNat 58) s2 with
      | none => none
      | some s3 =>
        match parseField 0 59 s3 with
        | none => none
        | some (mi, s4) =>
          match expectChar (Char.ofNat 58) s4 with
          | none => none
          | some s5 =>
            match parseField 0 61 s5 with
            | none => none
            | some (ss, s6) => some (hh, mi, ss, s6)

/-- Gregorian leap year. -/
def isLeap (y : Nat) : Bool :=
  y % 4 = 0 && (y % 100 ≠ 0 || y % 400 = 0)

/-- Days in a month (months are 1-12 wherever this is applied). -/
def daysInMonth (y m : Nat) : Nat :=
  if m = 2 then (if isLeap y then 29 else 28)
  else if m = 4 ∨ m = 6 ∨ m = 9 ∨ m = 11 then 30
  else 31

/-- The `datetime(...)` constructor validation, producing a UTC-aware
value as `strptime(...).replace(tzinfo=timezone.utc)` does. -/
def mkUtcDatetime (y m d hh mi ss : Nat) : Option PyDateTime :=
  if 1 ≤ y ∧ d ≤ daysInMonth y m ∧ ss ≤ 59 then
    some ⟨y, m, d, hh, mi, ss, some 0⟩
  else none

/-- `datetime.strptime(s, "%Y-%m-%d %H:%M:%S").replace(tzinfo=utc)`,
`none` when strptime or the datetime constructor raises `ValueError`. -/
def strptime_datetime_utc (s : String) : Option PyDateTime :=
  match parseYMD s.toList with
  | none => none
  | some (y, m, d, rest) =>
    match parseHMS rest with
    | none => none
    | some (hh, mi, ss, rest2) =>
      if rest2.isEmpty then mkUtcDatetime y m d hh mi ss else none

/-- `datetime.strptime(s, "%Y-%m-%d").replace(tzinfo=utc)`. -/
def strptime_date_utc (s : String) : Option PyDateTime :=
  match parseYMD s.toList with
  | none => none
  | some (y, m, d, rest) =>
    if rest.isEmpty then mkUtcDatetime y m d 0 0 0 else none

/-- Days from civil date to 1970-01-01 (Gregorian, proleptic). -/
def daysFromCivil (y m d : Nat) : Int :=
  let y2 : Nat := if m ≤ 2 then y - 1 else y
  let era := y2 / 400
  let yoe := y2 % 400
  let mp := if 2 < m then m - 3 else m + 9
  let doy := (153 * mp + 2) / 5 + (d - 1)
  let doe := yoe * 365 + yoe / 4 - yoe / 100 + doy
  ((era * 146097 + doe : Nat) : Int) - 719468

/-- `int(dt.timestamp() * 1000)` for a datetime on whole seconds. -/
def PyDateTime.epochMs (t : PyDateTime) : Int :=
  daysFromCivil t.year t.month t.day * 86400000 +
    (t.hour : Int) * 3600000 + (t.minute : Int) * 60000 +
    (t.second : Int) * 1000 - t.utcOffsetMin.getD 0 * 60000

/-- The argument of `to_milliseconds`: an int, a float, a string, a
datetime, or a value of any other Python type (identified by its type
name, which only feeds the error message). -/
inductive TimeInput where
  | int (n : Int)
  | float (q : Rat)
  | str (s : String)
  | datetime (t : PyDateTime)
  | other (typeName : String)
deriving Repr

/-- Python exception kinds raised by `to_milliseconds`. -/
inductive PyErr where
  | valueError (msg : String)
  | typeError (msg : String)
deriving DecidableEq, Repr

/-- `int()` on a float value: truncation toward zero. -/
def ratTrunc (q : Rat) : Int :=
  if q < 0 then -(Int.floor (-q)) else Int.floor q

/-- `to_milliseconds(dt)` from `src/binance_client/base.py`. -/
def to_milliseconds (x : TimeInput) : Except PyErr Int :=
  match x with
  | .int n => .ok n
  | .float q => .ok (ratTrunc q)
  | .str s =>
    match strptime_datetime_utc s with
    | some t => .ok t.epochMs
    | none =>
      match strptime_date_utc s with
      | some t => .ok t.epochMs
      | none =>
        .error (.valueError ("Unsupported datetime format: \x27" ++ s ++
          "\x27. Use \x27YYYY-MM-DD\x27 or \x27YYYY-MM-DD HH:MM:SS\x27"))
  | .datetime t =>
    let t2 := if t.utcOffsetMin.isNone then
      { t with utcOffsetMin := some 0 } else t
    .ok t2.epochMs
  | .other tn => .error (.typeError ("Cannot convert " ++ tn ++ " to timestamp"))

/-- Modelled from the spec: a string literally of shape `YYYY-MM-DD`
(four digits, dash, two digits, dash, two digits), used only to state
what the format claim of the specification asserts. -/
def spec_matches_date (s : String) : Bool :=
  let cs := s.toList
  cs.length == 10 && (cs.take 4).all (·.isDigit) &&
    cs.getD 4 (Char.ofNat 32) == Char.ofNat 45 &&
    ((cs.drop 5).take 2).all (·.isDigit) &&
    cs.getD 7 (Char.ofNat 32) == Char.ofNat 45 &&
    (cs.drop 8).all (·.isDigit)

/-- Modelled from the spec: a string literally of shape
`YYYY-MM-DD HH:MM:SS`. -/
def spec_matches_datetime (s : String) : Bool :=
  let cs := s.toList
  cs.length == 19 && spec_matches_date (String.mk (cs.take 10)) &&
    cs.getD 10 (Char.ofNat 45) == Char.ofNat 32 &&
    ((cs.drop 11).take 2).all (·.isDigit) &&
    cs.getD 13 (Char.ofNat 32) == Char.ofNat 58 &&
    ((cs.drop 14).take 2).all (·.isDigit) &&
    cs.getD 16 (Char.ofNat 32) == Char.ofNat 58 &&
    (cs.drop 17).all (·.isDigit)

/-! ### Auxiliary definitions used by the claim statements -/

/-- The timestamp of a canonical row (every canonical table in this file
has the `timestamp` cell first). -/
def rowTs (r : List PyVal) : Int :=
  match r with
  | .vTime t :: _ => t
  | _ => 0

/-- Boolean list-prefix test on characters. -/
def listPrefixOf : List Char → List Char → Bool
  | [], _ => true
  | _ :: _, [] => false
  | a :: as, b :: bs => a == b && listPrefixOf as bs

/-- Boolean substring test on character lists. -/
def listContains (needle : List Char) : List Char → Bool
  | [] => needle.isEmpty
  | b :: t => listPrefixOf needle (b :: t) || listContains needle t

/-- Substring test on strings, used to state whether an error message
identifies (contains) a URL. -/
def strContains (hay needle : String) : Bool :=
  listContains needle.toList hay.toList

/-- The contract the Binance REST API documents for kline pages, phrased
against the cursor evolution of `_paginate_klines`: each page is
ascending by open time, every row opens at or after the requested
`startTime` cursor and closes no earlier than it opens, and the next page
(requested at `lastRow.closeTime + 1`) satisfies the same contract. -/
def binance_pages_ok : Int → List (List BinanceKline) → Prop
  | _, [] => True
  | cur, p :: rest =>
    AscendingBy (fun k => k.openTime) p ∧
    (∀ k ∈ p, cur ≤ k.openTime ∧ k.openTime ≤ k.closeTime) ∧
    binance_pages_ok ((p.getLastD default).closeTime + 1) rest

/-- A concrete Binance kline for the scenario tests: one-minute candles
starting at epoch `1700000000000`. -/
def mkBinanceKline (i : Nat) : BinanceKline :=
  ⟨1700000000000 + i * 60000, .num 50000, .num 51000, .num 49000,
   .num 50500, .num 100, 1700000000000 + i * 60000 + 59999,
   .num 5050000, 1000, .num 60, .num 3030000, "0"⟩

/-- First mocked Binance page of the `limit=3` pagination scenario. -/
def binanceBatch1 : List BinanceKline :=
  [mkBinanceKline 0, mkBinanceKline 1, mkBinanceKline 2]

/-- Second (short) mocked Binance page of the scenario. -/
def binanceBatch2 : List BinanceKline :=
  [mkBinanceKline 3, mkBinanceKline 4]

/-- A concrete OKX kline with the given timestamp. -/
def mkOkxKline (t : Int) : OkxKline :=
  ⟨t, .num 1, .num 2, .num 1, .num 2, .num 10, .num 10, .num 20, "1"⟩

/-- A mocked OKX page (newest-first) whose oldest row lies before the
requested start time `1000`. -/
def okxStalePage : List OkxKline := [mkOkxKline 5000, mkOkxKline 999]

/-! ## General lemmas -/

theorem perm_insertByKey (key : α → Int) (a : α) (l : List α) :
    List.Perm (insertByKey key a l) (a :: l) := by
  induction l with
  | nil => simp [insertByKey]
  | cons b l ih =>
    simp only [insertByKey]
    by_cases h : key a ≤ key b
    · simp [h]
    · simp only [if_neg h]
      exact .trans (.cons b ih) (.swap a b l)

theorem perm_sortByKey (key : α → Int) (l : List α) :
    List.Perm (sortByKey key l) l := by
  induction l with
  | nil => exact .refl []
  | cons a l ih =>
    exact .trans (perm_insertByKey key a (sortByKey key l)) (.cons a ih)

theorem mem_insertByKey (key : α → Int) (a x : α) (l : List α) :
    x ∈ insertByKey key a l ↔ x = a ∨ x ∈ l := by
  rw [(perm_insertByKey key a l).mem_iff, List.mem_cons]

theorem mem_sortByKey (key : α → Int) (x : α) (l : List α) :
    x ∈ sortByKey key l ↔ x ∈ l :=
  (perm_sortByKey key l).mem_iff

theorem length_sortByKey (key : α → Int) (l : List α) :
    (sortByKey key l).length = l.length :=
  (perm_sortByKey key l).length_eq

theorem ascending_insertByKey (key : α → Int) (a : α) (l : List α)
    (h : AscendingBy key l) : AscendingBy key (insertByKey key a l) := by
  induction l with
  | nil => simp [insertByKey, AscendingBy]
  | cons b l ih =>
    simp only [insertByKey]
    rcases List.pairwise_cons.mp h with ⟨hb, hl⟩
    by_cases hab : key a ≤ key b
    · simp only [if_pos hab]
      refine List.pairwise_cons.mpr ⟨?_, h⟩
      intro y hy
      rcases List.mem_cons.mp hy with rfl | hy
      · exact hab
      · exact le_trans hab (hb y hy)
    · simp only [if_neg hab]
      refine List.pairwise_cons.mpr ⟨?_, ih hl⟩
      intro y hy
      rcases (mem_insertByKey key a y l).mp hy with rfl | hy
      · exact le_of_not_le hab
      · exact hb y hy

theorem ascending_sortByKey (key : α → Int) (l : List α) :
    AscendingBy key (sortByKey key l) := by
  induction l with
  | nil => exact List.Pairwise.nil
  | cons a l ih => exact ascending_insertByKey key a (sortByKey key l) ih

theorem mem_getLastD {α} (l : List α) (d : α) (h : l ≠ []) :
    l.getLastD d ∈ l := by
  induction l generalizing d with
  | nil => exact absurd rfl h
  | cons a t ih =>
    rw [List.getLastD_cons]
    cases t with
    | nil => exact List.mem_singleton.mpr rfl
    | cons b t2 =>
      exact List.mem_cons_of_mem a (ih a (List.cons_ne_nil b t2))

theorem key_le_getLastD (key : α → Int) (l : List α) (d : α)
    (h : AscendingBy key l) : ∀ a ∈ l, key a ≤ key (l.getLastD d) := by
  induction l generalizing d with
  | nil => intro a ha; exact absurd ha (List.not_mem_nil a)
  | cons b t ih =>
    intro a ha
    rw [List.getLastD_cons]
    rcases List.pairwise_cons.mp h with ⟨hb, ht⟩
    rcases List.mem_cons.mp ha with rfl | hat
    · cases t with
      | nil => exact le_refl _
      | cons c t2 =>
        exact hb _ (mem_getLastD (c :: t2) a (List.cons_ne_nil c t2))
    · exact ih b ht a hat

theorem ascending_map_of_key (key : α → Int) (f : α → List PyVal)
    (l : List α) (hf : ∀ a, rowTs (f a) = key a) (h : AscendingBy key l) :
    AscendingBy rowTs (l.map f) := by
  unfold AscendingBy at *
  rw [List.pairwise_map]
  exact h.imp fun hxy => by rw [hf, hf]; exact hxy

/-! ## Claim C4: the source factory -/

/-- C4: `create_source` is case-insensitive and raises a `ValueError`
enumerating the supported set for unknown names — but only `binance` and
`kraken` are in the registry; `bybit`, `okx`, `coinbase`, `phemex` and
`upbit` are rejected even though the test suite expects them to be
created (`test_bybit_source.py::TestFactory` and friends), so the code
contradicts its own tests. -/
theorem c4_factory_only_binance_and_kraken :
    create_source "bybit" =
      .error "Unsupported exchange: \x27bybit\x27. Supported: binance, kraken" ∧
    create_source "okx" =
      .error "Unsupported exchange: \x27okx\x27. Supported: binance, kraken" ∧
    create_source "coinbase" =
      .error "Unsupported exchange: \x27coinbase\x27. Supported: binance, kraken" ∧
    create_source "phemex" =
      .error "Unsupported exchange: \x27phemex\x27. Supported: binance, kraken" ∧
    create_source "upbit" =
      .error "Unsupported exchange: \x27upbit\x27. Supported: binance, kraken" ∧
    create_source "binance" = .ok .binanceFuturesSource ∧
    create_source "Binance" = .ok .binanceFuturesSource ∧
    create_source "KRAKEN" = .ok .krakenFuturesSource ∧
    create_source "nonexistent" =
      .error "Unsupported exchange: \x27nonexistent\x27. Supported: binance, kraken" :=
  ⟨rfl, rfl, rfl, rfl, rfl, rfl, rfl, rfl, rfl⟩

/-! ## Claim C1: canonical column lists -/

theorem binance_dropCol_ignore (rows : List (List PyVal)) :
    (Frame.mk
      ["timestamp", "open", "high", "low", "close", "volume",
       "close_time", "quote_volume", "trades",
       "taker_buy_volume", "taker_buy_quote_volume", "_ignore"]
      rows).dropCol "_ignore" =
    ⟨["timestamp", "open", "high", "low", "close", "volume",
      "close_time", "quote_volume", "trades",
      "taker_buy_volume", "taker_buy_quote_volume"],
     rows.map (fun r => r.eraseIdx 11)⟩ := rfl

/-- C1 counterexample: an empty first page does NOT yield a table carrying
the canonical column list — both the Binance and the Bybit OHLCV fetch
return the bare `pd.DataFrame()` (zero rows AND zero columns). -/
theorem c1_empty_page_counterexample :
    binance_fetch_ohlcv [[]] 0 1000 = some (Frame.empty, 1) ∧
    bybit_fetch_ohlcv [[]] 0 1000 = some (Frame.empty, 1) ∧
    Frame.empty.cols ≠ DataType.ohlcv.columns :=
  ⟨rfl, rfl, by decide⟩

/-- C1 (amended): for every NON-EMPTY raw payload the column list of the
converted table equals `DataType.columns` exactly and in order (shown for the
Binance kline converter in both arities and for the Bybit, OKX, Coinbase
and Upbit OHLCV converters, with no row lost), while an empty payload
produces the zero-row, zero-column `pd.DataFrame()`. -/
theorem c1_columns_amended :
    (∀ raw : List BinanceKline, raw ≠ [] →
      (binance_klines_to_df raw true).cols = DataType.ohlcv.columns ∧
      (binance_klines_to_df raw true).rows.length = raw.length) ∧
    (∀ raw : List BinanceKline, raw ≠ [] →
      (binance_klines_to_df raw false).cols = DataType.indexPrice.columns) ∧
    (∀ raw : List BybitKline, raw ≠ [] →
      (bybit_klines_to_ohlcv_df raw).cols = DataType.ohlcv.columns ∧
      (bybit_klines_to_ohlcv_df raw).rows.length = raw.length) ∧
    (∀ raw : List OkxKline, raw ≠ [] →
      (okx_klines_to_ohlcv_df raw).cols = DataType.ohlcv.columns) ∧
    (∀ raw : List CbCandle, raw ≠ [] →
      (coinbase_candles_to_df raw).cols = DataType.ohlcv.columns) ∧
    (∀ raw : List UpbitCandle, raw ≠ [] →
      (upbit_candles_to_df raw).cols = DataType.ohlcv.columns) ∧
    binance_klines_to_df [] true = Frame.empty ∧
    binance_klines_to_df [] false = Frame.empty ∧
    bybit_klines_to_ohlcv_df [] = Frame.empty ∧
    okx_klines_to_ohlcv_df [] = Frame.empty ∧
    coinbase_candles_to_df [] = Frame.empty ∧
    upbit_candles_to_df [] = Frame.empty := by
  refine ⟨?_, ?_, ?_, ?_, ?_, ?_, rfl, rfl, rfl, rfl, rfl, rfl⟩
  · intro raw h
    cases raw with
    | nil => exact absurd rfl h
    | cons k t =>
      refine ⟨rfl, ?_⟩
      simp [binance_klines_to_df, binance_dropCol_ignore]
  · intro raw h
    cases raw with
    | nil => exact absurd rfl h
    | cons k t => exact rfl
  · intro raw h
    cases raw with
    | nil => exact absurd rfl h
    | cons k t =>
      refine ⟨rfl, ?_⟩
      simp [bybit_klines_to_ohlcv_df, Frame.select]
  · intro raw h
    cases raw with
    | nil => exact absurd rfl h
    | cons k t => exact rfl
  · intro raw h
    cases raw with
    | nil => exact absurd rfl h
    | cons k t => exact rfl
  · intro raw h
    cases raw with
    | nil => exact absurd rfl h
    | cons k t => exact rfl

/-- C1 witness: the amended theorem applied to a concrete non-empty
payload. -/
theorem c1_columns_amended_witness :
    (binance_klines_to_df binanceBatch1 true).cols = DataType.ohlcv.columns ∧
    (bybit_klines_to_ohlcv_df [⟨1700000000000, .num 1, .num 2, .num 1,
        .num 2, .num 10, .num 20⟩]).cols = DataType.ohlcv.columns :=
  ⟨(c1_columns_amended.1 binanceBatch1 (by simp [binanceBatch1])).1,
   (c1_columns_amended.2.2.1 _ (List.cons_ne_nil _ _)).1⟩

/-! ## Claim C10: the guarded long/short-ratio division -/

theorem lsr_row_checked_eq (it : BybitLsrItem) :
    bybit_lsr_row_checked it = .ok (bybit_lsr_row it) := by
  unfold bybit_lsr_row_checked bybit_lsr_row
  cases hs : it.sellRatio with
  | nan =>
    cases it.buyRatio <;> simp [PyFloat.ne0, pyDiv, pyDivT, Except.map]
  | num q =>
    by_cases hq : q = 0
    · subst hq
      simp [PyFloat.ne0, pyDivT]
    · cases it.buyRatio <;> simp [PyFloat.ne0, pyDiv, pyDivT, hq, Except.map]

/-- C10: converting any Bybit long/short-ratio response whose ratio
fields are floats never raises `ZeroDivisionError` — the rows build to
`.ok` for every input — and a record whose `sellRatio` is `0` gets a NaN
`long_short_ratio` instead of a quotient. -/
theorem c10_lsr_division_guard :
    (∀ items : List BybitLsrItem,
      bybit_lsr_rows_checked items = .ok (items.map bybit_lsr_row)) ∧
    (∀ it : BybitLsrItem, it.sellRatio = .num 0 →
      (bybit_lsr_row it).ratio = .nan) := by
  constructor
  · intro items
    induction items with
    | nil => rfl
    | cons it t ih =>
      unfold bybit_lsr_rows_checked
      rw [lsr_row_checked_eq, ih]
      rfl
  · intro it hs
    simp [bybit_lsr_row, hs, PyFloat.ne0]

/-- C10 witness: a concrete record with `sellRatio = 0` converts without
error and carries a NaN ratio. -/
theorem c10_lsr_division_guard_witness :
    bybit_lsr_rows_checked [⟨"BTCUSDT", .num 1, .num 0, 1700000000000⟩] =
      .ok [bybit_lsr_row ⟨"BTCUSDT", .num 1, .num 0, 1700000000000⟩] ∧
    (bybit_lsr_row ⟨"BTCUSDT", .num 1, .num 0, 1700000000000⟩).ratio = .nan :=
  ⟨c10_lsr_division_guard.1 [⟨"BTCUSDT", .num 1, .num 0, 1700000000000⟩],
   c10_lsr_division_guard.2 ⟨"BTCUSDT", .num 1, .num 0, 1700000000000⟩ rfl⟩

/-! ## Claim C9: Bybit long/short ratio ignores the requested range -/

/-- C9: the long/short-ratio request carries the fixed `limit=500` (and
no time parameters); the result is entirely independent of `startTime`
and `endTime`; every response record — in range or not — contributes
exactly one row; and the rows are sorted ascending by timestamp. -/
theorem c9_lsr_ignores_time_range :
    (∀ sym per, (bybit_lsr_params sym per).limit = 500) ∧
    (∀ items s e s2 e2, bybit_fetch_long_short_ratio items s e =
      bybit_fetch_long_short_ratio items s2 e2) ∧
    (∀ items s e,
      AscendingBy rowTs (bybit_fetch_long_short_ratio items s e).rows) ∧
    (∀ items s e,
      (bybit_fetch_long_short_ratio items s e).rows.length = items.length) ∧
    (∀ items s e it, it ∈ items →
      lsrCells (bybit_lsr_row it) ∈
        (bybit_fetch_long_short_ratio items s e).rows) := by
  refine ⟨fun _ _ => rfl, fun _ _ _ _ _ => rfl, ?_, ?_, ?_⟩
  · intro items s e
    cases items with
    | nil => exact List.Pairwise.nil
    | cons it t =>
      simp only [bybit_fetch_long_short_ratio, List.isEmpty_cons,
        Bool.false_eq_true, if_false]
      exact ascending_map_of_key (·.ts) lsrCells _ (fun _ => rfl)
        (ascending_sortByKey _ _)
  · intro items s e
    cases items with
    | nil => rfl
    | cons it t =>
      simp [bybit_fetch_long_short_ratio, length_sortByKey]
  · intro items s e it hmem
    cases items with
    | nil => exact absurd hmem (List.not_mem_nil it)
    | cons i0 t =>
      simp only [bybit_fetch_long_short_ratio, List.isEmpty_cons,
        Bool.false_eq_true, if_false]
      exact List.mem_map_of_mem lsrCells
        ((mem_sortByKey _ _ _).mpr (List.mem_map_of_mem bybit_lsr_row hmem))

/-- C9 witness: a record whose timestamp `42` lies far outside the
requested `[1000, 2000)` range is still returned, and swapping the range
does not change the table. -/
theorem c9_lsr_ignores_time_range_witness :
    lsrCells (bybit_lsr_row ⟨"BTCUSDT", .num 6, .num 4, 42⟩) ∈
      (bybit_fetch_long_short_ratio [⟨"BTCUSDT", .num 6, .num 4, 42⟩]
        1000 2000).rows ∧
    bybit_fetch_long_short_ratio [⟨"BTCUSDT", .num 6, .num 4, 42⟩] 1000 2000 =
      bybit_fetch_long_short_ratio [⟨"BTCUSDT", .num 6, .num 4, 42⟩] 0 0 :=
  ⟨c9_lsr_ignores_time_range.2.2.2.2 [⟨"BTCUSDT", .num 6, .num 4, 42⟩]
      1000 2000 ⟨"BTCUSDT", .num 6, .num 4, 42⟩ (List.mem_singleton.mpr rfl),
   c9_lsr_ignores_time_range.2.1 [⟨"BTCUSDT", .num 6, .num 4, 42⟩]
      1000 2000 0 0⟩

/-! ## Claim C2: ascending rows -/

theorem bybit_paginate_sorted (pages : List (List BybitKline))
    (startMs endMs : Int) (limit : Nat) (out : List BybitKline) (n : Nat)
    (h : bybit_paginate_klines pages startMs endMs limit = some (out, n)) :
    AscendingBy (fun k => k.startTime) out := by
  unfold bybit_paginate_klines at h
  cases hloop : bybit_klines_loop pages startMs endMs limit with
  | none => rw [hloop] at h; exact absurd h (by simp [Option.map])
  | some r =>
    rw [hloop] at h
    simp only [Option.map, Option.some.injEq] at h
    have : out = sortByKey (fun k => k.startTime) r.1 := by
      cases h; rfl
    rw [this]
    exact ascending_sortByKey _ _

theorem okx_paginate_sorted (pages : List (List OkxKline))
    (startMs : Int) (limit : Nat) (out : List OkxKline) (n : Nat)
    (h : okx_paginate_klines pages startMs limit = some (out, n)) :
    AscendingBy (fun k => k.ts) out := by
  unfold okx_paginate_klines at h
  cases hloop : okx_klines_loop pages startMs limit with
  | none => rw [hloop] at h; exact absurd h (by simp [Option.map])
  | some r =>
    rw [hloop] at h
    simp only [Option.map, Option.some.injEq] at h
    have : out = sortByKey (fun k => k.ts) r.1 := by
      cases h; rfl
    rw [this]
    exact ascending_sortByKey _ _

theorem bybit_df_ascending (l : List BybitKline)
    (h : AscendingBy (fun k => k.startTime) l) :
    AscendingBy rowTs (bybit_klines_to_ohlcv_df l).rows := by
  cases l with
  | nil => exact List.Pairwise.nil
  | cons k t =>
    simp only [bybit_klines_to_ohlcv_df, List.isEmpty_cons,
      Bool.false_eq_true, if_false, Frame.select, List.map_map]
    exact ascending_map_of_key (fun k => k.startTime) _ _ (fun _ => rfl) h

theorem binance_loop_ascending :
    ∀ (pages : List (List BinanceKline)) (cur endMs : Int) (limit : Nat)
      (out : List BinanceKline) (n : Nat),
      binance_pages_ok cur pages →
      binance_paginate_klines pages cur endMs limit = some (out, n) →
      AscendingBy (fun k => k.openTime) out ∧ ∀ k ∈ out, cur ≤ k.openTime := by
  intro pages
  induction pages with
  | nil =>
    intro cur endMs limit out n _ hrun
    unfold binance_paginate_klines at hrun
    by_cases hc : cur < endMs
    · rw [if_pos hc] at hrun; exact absurd hrun (by simp)
    · rw [if_neg hc] at hrun
      simp only [Option.some.injEq, Prod.mk.injEq] at hrun
      obtain ⟨rfl, -⟩ := hrun
      exact ⟨List.Pairwise.nil, by simp⟩
  | cons p rest ih =>
    intro cur endMs limit out n hok hrun
    obtain ⟨hpAsc, hpBound, hrestOk⟩ := hok
    unfold binance_paginate_klines at hrun
    by_cases hc : cur < endMs
    · rw [if_pos hc] at hrun
      dsimp only at hrun
      by_cases hpe : p.isEmpty
      · rw [if_pos hpe] at hrun
        simp only [Option.some.injEq, Prod.mk.injEq] at hrun
        obtain ⟨rfl, -⟩ := hrun
        exact ⟨List.Pairwise.nil, by simp⟩
      · rw [if_neg hpe] at hrun
        have hpne : p ≠ [] := by
          cases p with
          | nil => exact absurd rfl hpe
          | cons a b => exact List.cons_ne_nil a b
        by_cases hlen : p.length < limit
        · rw [if_pos hlen] at hrun
          simp only [Option.some.injEq, Prod.mk.injEq] at hrun
          obtain ⟨rfl, -⟩ := hrun
          exact ⟨hpAsc, fun k hk => (hpBound k hk).1⟩
        · rw [if_neg hlen] at hrun
          cases hrec : binance_paginate_klines rest
              ((p.getLastD default).closeTime + 1) endMs limit with
          | none => rw [hrec] at hrun; exact absurd hrun (by simp)
          | some r =>
            rw [hrec] at hrun
            simp only [Option.some.injEq, Prod.mk.injEq] at hrun
            obtain ⟨rfl, -⟩ := hrun
            obtain ⟨hTlAsc, hTlBound⟩ :=
              ih _ endMs limit r.1 r.2 hrestOk (by rw [hrec])
            have hlastMem : p.getLastD default ∈ p := mem_getLastD p default hpne
            have hlastClose : (p.getLastD default).openTime ≤
                (p.getLastD default).closeTime := (hpBound _ hlastMem).2
            constructor
            · refine List.pairwise_append.mpr ⟨hpAsc, hTlAsc, ?_⟩
              intro a ha b hb
              have h1 : a.openTime ≤ (p.getLastD default).openTime :=
                key_le_getLastD _ p default hpAsc a ha
              have h2 : (p.getLastD default).closeTime + 1 ≤ b.openTime :=
                hTlBound b hb
              show a.openTime ≤ b.openTime
              omega
            · intro k hk
              rcases List.mem_append.mp hk with hkp | hkt
              · exact (hpBound k hkp).1
              · have h1 : cur ≤ (p.getLastD default).openTime :=
                  (hpBound _ hlastMem).1
                have h2 : (p.getLastD default).closeTime + 1 ≤ k.openTime :=
                  hTlBound k hkt
                omega
    · rw [if_neg hc] at hrun
      simp only [Option.some.injEq, Prod.mk.injEq] at hrun
      obtain ⟨rfl, -⟩ := hrun
      exact ⟨List.Pairwise.nil, by simp⟩

/-- C2: returned rows are non-decreasing by timestamp: unconditionally
for the descending-page adapters, which sort ascending after
accumulating (Bybit and OKX pagination, the Coinbase and Upbit candle
converters, and the full Bybit OHLCV fetch), and for the forward Binance
pagination whenever the mocked pages satisfy the documented exchange
ordering contract (`binance_pages_ok`). -/
theorem c2_rows_ascending :
    (∀ pages startMs endMs limit out n,
      bybit_paginate_klines pages startMs endMs limit = some (out, n) →
      AscendingBy (fun k => k.startTime) out) ∧
    (∀ pages startMs limit out n,
      okx_paginate_klines pages startMs limit = some (out, n) →
      AscendingBy (fun k => k.ts) out) ∧
    (∀ raw, AscendingBy rowTs (coinbase_candles_to_df raw).rows) ∧
    (∀ raw, AscendingBy rowTs (upbit_candles_to_df raw).rows) ∧
    (∀ pages startMs endMs fr n,
      bybit_fetch_ohlcv pages startMs endMs = some (fr, n) →
      AscendingBy rowTs fr.rows) ∧
    (∀ pages cur endMs limit out n,
      binance_pages_ok cur pages →
      binance_paginate_klines pages cur endMs limit = some (out, n) →
      AscendingBy (fun k => k.openTime) out) := by
  refine ⟨bybit_paginate_sorted, okx_paginate_sorted, ?_, ?_, ?_, ?_⟩
  · intro raw
    cases raw with
    | nil => exact List.Pairwise.nil
    | cons c t =>
      simp only [coinbase_candles_to_df, List.isEmpty_cons,
        Bool.false_eq_true, if_false]
      exact ascending_map_of_key (fun c => c.time) _ _ (fun _ => rfl)
        (ascending_sortByKey _ _)
  · intro raw
    cases raw with
    | nil => exact List.Pairwise.nil
    | cons c t =>
      simp only [upbit_candles_to_df, List.isEmpty_cons,
        Bool.false_eq_true, if_false]
      exact ascending_map_of_key (fun c => c.candleTimeUtc) _ _ (fun _ => rfl)
        (ascending_sortByKey _ _)
  · intro pages startMs endMs fr n h
    unfold bybit_fetch_ohlcv at h
    cases hp : bybit_paginate_klines pages startMs endMs 200 with
    | none => rw [hp] at h; exact absurd h (by simp [Option.map])
    | some r =>
      rw [hp] at h
      simp only [Option.map, Option.some.injEq, Prod.mk.injEq] at h
      obtain ⟨rfl, -⟩ := h
      exact bybit_df_ascending r.1 (bybit_paginate_sorted _ _ _ _ _ _ hp)
  · intro pages cur endMs limit out n hok hrun
    exact (binance_loop_ascending pages cur endMs limit out n hok hrun).1

/-- C2 witness: concrete descending pages come back ascending from the
Bybit and OKX paginations and the Bybit OHLCV frame, and a concrete
contract-satisfying Binance page sequence stays ascending. -/
theorem c2_rows_ascending_witness :
    AscendingBy (fun k : BybitKline => k.startTime)
      [⟨100, .num 1, .num 1, .num 1, .num 1, .num 1, .num 1⟩,
       ⟨200, .num 1, .num 1, .num 1, .num 1, .num 1, .num 1⟩] ∧
    AscendingBy (fun k : OkxKline => k.ts)
      [mkOkxKline 100, mkOkxKline 200] ∧
    AscendingBy rowTs (bybit_klines_to_ohlcv_df
      [⟨100, .num 1, .num 1, .num 1, .num 1, .num 1, .num 1⟩,
       ⟨200, .num 1, .num 1, .num 1, .num 1, .num 1, .num 1⟩]).rows ∧
    AscendingBy (fun k : BinanceKline => k.openTime) [mkBinanceKline 0] := by
  have hok : binance_pages_ok 1700000000000 [[mkBinanceKline 0]] := by
    refine ⟨?_, ?_, trivial⟩
    · simp [AscendingBy]
    · intro k hk
      rw [List.mem_singleton] at hk
      subst hk
      constructor <;> norm_num [mkBinanceKline]
  refine ⟨?_, ?_, ?_, ?_⟩
  · exact c2_rows_ascending.1
      [[⟨200, .num 1, .num 1, .num 1, .num 1, .num 1, .num 1⟩,
        ⟨100, .num 1, .num 1, .num 1, .num 1, .num 1, .num 1⟩]]
      0 1000 200 _ 1 rfl
  · exact c2_rows_ascending.2.1
      [[mkOkxKline 200, mkOkxKline 100]] 1000 100 _ 1 rfl
  · exact c2_rows_ascending.2.2.2.2.1
      [[⟨200, .num 1, .num 1, .num 1, .num 1, .num 1, .num 1⟩,
        ⟨100, .num 1, .num 1, .num 1, .num 1, .num 1, .num 1⟩]]
      0 1000 _ 1 rfl
  · exact c2_rows_ascending.2.2.2.2.2
      [[mkBinanceKline 0]] 1700000000000 1700000600000 1500 _ 1 hok rfl

/-! ## Claim C3: the time-range boundary -/

theorem kraken_funding_rows (resp : KrakenFundingResp) (sym : String)
    (S E : Int) (fr : Frame)
    (h : kraken_fetch_funding_rate resp sym S E = .ok fr) :
    fr.rows.map rowTs =
      (resp.rates.filter fun r => S ≤ r.ts && r.ts < E).map fun r => r.ts := by
  unfold kraken_fetch_funding_rate at h
  by_cases hres : resp.result ≠ "success"
  · rw [if_pos hres] at h; exact absurd h (by simp)
  · rw [if_neg hres] at h
    by_cases hre : resp.rates.isEmpty
    · rw [if_pos hre] at h
      have : resp.rates = [] := List.isEmpty_iff.mp hre
      simp only [Except.ok.injEq] at h
      rw [← h, this]
      rfl
    · rw [if_neg hre] at h
      by_cases hfe : (resp.rates.filter fun r => S ≤ r.ts && r.ts < E).isEmpty
      · rw [if_pos hfe] at h
        simp only [Except.ok.injEq] at h
        rw [← h, List.isEmpty_iff.mp hfe]
        rfl
      · rw [if_neg hfe] at h
        simp only [Except.ok.injEq] at h
        rw [← h]
        simp only [List.map_map]
        rfl

/-- C3 counterexample: the OKX kline pagination accumulates a whole page
before testing the start boundary, so a fetch for `[1000, ...)` returns a
row stamped `999`, violating the claimed `[startTime, endTime)`
guarantee. -/
theorem c3_okx_row_before_start_counterexample :
    okx_fetch_ohlcv [okxStalePage] 1000 =
      some (okx_klines_to_ohlcv_df [mkOkxKline 999, mkOkxKline 5000], 1) ∧
    (okx_klines_to_ohlcv_df [mkOkxKline 999, mkOkxKline 5000]).rows.map rowTs
      = [999, 5000] ∧
    ¬ ((1000 : Int) ≤ 999) :=
  ⟨rfl, rfl, by decide⟩

/-- C3 (amended): the Kraken funding-rate fetch makes one unpaginated
call and locally keeps exactly the records with timestamp in
`[startTime, endTime)` (every returned row lies in that interval, and the
returned timestamps are precisely the filtered ones); a non-`success`
envelope raises; but the `[start, end)` bound is NOT enforced by every
adapter (the OKX pagination can return rows before `startTime`, see the
counterexample). -/
theorem c3_time_range_amended :
    (∀ resp sym S E fr,
      kraken_fetch_funding_rate resp sym S E = .ok fr →
      fr.rows.map rowTs =
        (resp.rates.filter fun r => S ≤ r.ts && r.ts < E).map fun r => r.ts) ∧
    (∀ resp sym S E fr,
      kraken_fetch_funding_rate resp sym S E = .ok fr →
      ∀ r ∈ fr.rows, S ≤ rowTs r ∧ rowTs r < E) ∧
    (∀ resp sym S E, resp.result ≠ "success" →
      kraken_fetch_funding_rate resp sym S E =
        .error "Kraken Futures API error") := by
  refine ⟨kraken_funding_rows, ?_, ?_⟩
  · intro resp sym S E fr h r hr
    have hmap := kraken_funding_rows resp sym S E fr h
    have hin : rowTs r ∈ fr.rows.map rowTs := List.mem_map_of_mem rowTs hr
    rw [hmap] at hin
    obtain ⟨x, hx, hxr⟩ := List.mem_map.mp hin
    obtain ⟨-, hxf⟩ := List.mem_filter.mp hx
    rw [Bool.and_eq_true, decide_eq_true_eq, decide_eq_true_eq] at hxf
    rw [← hxr]
    exact hxf
  · intro resp sym S E hres
    unfold kraken_fetch_funding_rate
    rw [if_pos hres]

/-- C3 witness: the amended Kraken filter applied to a concrete response
spanning the requested range keeps exactly the in-range record. -/
theorem c3_time_range_amended_witness :
    kraken_fetch_funding_rate
        ⟨"success", [⟨500, .num 1, .num 1⟩, ⟨1500, .num 2, .num 2⟩,
          ⟨2500, .num 3, .num 3⟩]⟩ "PF_XBTUSD" 1000 2000 =
      .ok ⟨DataType.fundingRate.columns,
        [[.vTime 1500, .vStr "PF_XBTUSD", .vFloat (.num 2), .vFloat .nan]]⟩ ∧
    (∀ r ∈ ([[PyVal.vTime 1500, PyVal.vStr "PF_XBTUSD",
        PyVal.vFloat (.num 2), PyVal.vFloat .nan]] : List (List PyVal)),
      (1000 : Int) ≤ rowTs r ∧ rowTs r < 2000) :=
  ⟨rfl,
   c3_time_range_amended.2.1
     ⟨"success", [⟨500, .num 1, .num 1⟩, ⟨1500, .num 2, .num 2⟩,
       ⟨2500, .num 3, .num 3⟩]⟩ "PF_XBTUSD" 1000 2000 _ rfl⟩

/-! ## Claim C7: pagination terminates with one request per page -/

theorem binance_loop_total :
    ∀ (pages : List (List BinanceKline)) (cur endMs : Int) (limit : Nat)
      (lp : List BinanceKline),
      pages.getLast? = some lp → lp.length < limit →
      ∃ out n, binance_paginate_klines pages cur endMs limit = some (out, n) ∧
        n ≤ pages.length := by
  intro pages
  induction pages with
  | nil => intro cur endMs limit lp hl; simp at hl
  | cons p rest ih =>
    intro cur endMs limit lp hl hlen
    unfold binance_paginate_klines
    by_cases hc : cur < endMs
    · rw [if_pos hc]
      dsimp only
      by_cases hpe : p.isEmpty
      · rw [if_pos hpe]
        exact ⟨[], 1, rfl, by simp⟩
      · rw [if_neg hpe]
        cases rest with
        | nil =>
          have : p = lp := by
            have := hl
            simp [List.getLast?] at this
            exact this
          rw [if_pos (this ▸ hlen)]
          exact ⟨p, 1, rfl, le_refl 1⟩
        | cons q rest2 =>
          have hl2 := hl
          rw [List.getLast?_cons_cons] at hl2
          by_cases hplen : p.length < limit
          · rw [if_pos hplen]
            exact ⟨p, 1, rfl, by simp⟩
          · rw [if_neg hplen]
            obtain ⟨out, n, hrun, hn⟩ :=
              ih ((p.getLastD default).closeTime + 1) endMs limit lp hl2 hlen
            rw [hrun]
            refine ⟨p ++ out, n + 1, rfl, ?_⟩
            simp only [List.length_cons] at hn ⊢
            omega
    · rw [if_neg hc]
      exact ⟨[], 0, rfl, Nat.zero_le _⟩

theorem bybit_loop_total :
    ∀ (pages : List (List BybitKline)) (startMs currentEnd : Int)
      (limit : Nat) (lp : List BybitKline),
      pages.getLast? = some lp → lp.length < limit →
      ∃ out n, bybit_klines_loop pages startMs currentEnd limit = some (out, n) ∧
        n ≤ pages.length := by
  intro pages
  induction pages with
  | nil => intro startMs currentEnd limit lp hl; simp at hl
  | cons p rest ih =>
    intro startMs currentEnd limit lp hl hlen
    unfold bybit_klines_loop
    by_cases hc : currentEnd > startMs
    · rw [if_pos hc]
      dsimp only
      by_cases hpe : p.isEmpty
      · rw [if_pos hpe]
        exact ⟨[], 1, rfl, by simp⟩
      · rw [if_neg hpe]
        cases rest with
        | nil =>
          have : p = lp := by
            have := hl
            simp [List.getLast?] at this
            exact this
          rw [if_pos (this ▸ hlen)]
          exact ⟨p, 1, rfl, le_refl 1⟩
        | cons q rest2 =>
          have hl2 := hl
          rw [List.getLast?_cons_cons] at hl2
          by_cases hplen : p.length < limit
          · rw [if_pos hplen]
            exact ⟨p, 1, rfl, by simp⟩
          · rw [if_neg hplen]
            obtain ⟨out, n, hrun, hn⟩ :=
              ih startMs ((p.getLastD default).startTime - 1) limit lp hl2 hlen
            rw [hrun]
            refine ⟨p ++ out, n + 1, rfl, ?_⟩
            simp only [List.length_cons] at hn ⊢
            omega
    · rw [if_neg hc]
      exact ⟨[], 0, rfl, Nat.zero_le _⟩

/-- C7: any mocked page sequence whose final page is shorter than the
requested limit (in particular, empty) makes the Binance and Bybit
pagination loops terminate, issuing at most one HTTP request per mocked
page; and the concrete Binance scenario — a 3-row page then a 2-row page
under `limit=3` — issues exactly 2 requests and returns 5 ascending
rows. -/
theorem c7_pagination_terminates :
    (∀ (pages : List (List BinanceKline)) (cur endMs : Int) (limit : Nat)
      (lp : List BinanceKline),
      pages.getLast? = some lp → lp.length < limit →
      ∃ out n, binance_paginate_klines pages cur endMs limit = some (out, n) ∧
        n ≤ pages.length) ∧
    (∀ (pages : List (List BybitKline)) (startMs currentEnd : Int)
      (limit : Nat) (lp : List BybitKline),
      pages.getLast? = some lp → lp.length < limit →
      ∃ out n, bybit_klines_loop pages startMs currentEnd limit = some (out, n) ∧
        n ≤ pages.length) ∧
    (binance_paginate_klines [binanceBatch1, binanceBatch2]
        1700000000000 1700000600000 3 =
      some (binanceBatch1 ++ binanceBatch2, 2) ∧
     (binanceBatch1 ++ binanceBatch2).length = 5 ∧
     AscendingBy (fun k => k.openTime) (binanceBatch1 ++ binanceBatch2)) := by
  refine ⟨binance_loop_total, bybit_loop_total, rfl, rfl, ?_⟩
  simp only [binanceBatch1, binanceBatch2, List.cons_append, List.nil_append,
    AscendingBy]
  norm_num [List.pairwise_cons, mkBinanceKline]

/-- C7 witness: the termination bound applied at a concrete single short
page for each adapter. -/
theorem c7_pagination_terminates_witness :
    (∃ out n, binance_paginate_klines [binanceBatch2]
        1700000000000 1700000600000 3 = some (out, n) ∧ n ≤ 1) ∧
    (∃ out n, bybit_klines_loop
        [[⟨100, .num 1, .num 1, .num 1, .num 1, .num 1, .num 1⟩]]
        0 1000 200 = some (out, n) ∧ n ≤ 1) :=
  ⟨c7_pagination_terminates.1 [binanceBatch2] 1700000000000 1700000600000 3
      binanceBatch2 rfl (by simp [binanceBatch2]),
   c7_pagination_terminates.2.1
      [[⟨100, .num 1, .num 1, .num 1, .num 1, .num 1, .num 1⟩]] 0 1000 200
      [⟨100, .num 1, .num 1, .num 1, .num 1, .num 1, .num 1⟩] rfl
      (by simp)⟩

/-! ## Claims C5 and C6: transport retry behaviour -/

theorem backoffs_cons (a i : Nat) :
    (List.range (i + 1)).map (fun j => 2 ^ (a + j + 1)) =
      2 ^ (a + 1) :: (List.range i).map (fun j => 2 ^ (a + 1 + j + 1)) := by
  rw [List.range_succ_eq_map, List.map_cons, List.map_map]
  refine congrArg₂ List.cons (by norm_num) ?_
  apply List.map_congr_left
  intro j _
  have : a + (j + 1) + 1 = a + 1 + j + 1 := by omega
  simp [Function.comp, this]

theorem requestGo_requests_le (url : String) (n : Nat) :
    ∀ (rem a : Nat) (events : List HttpEvent) (r : RunResult),
      requestGo url n rem a events = some r → r.requests ≤ rem := by
  intro rem
  induction rem with
  | zero =>
    intro a events r h
    unfold requestGo at h
    simp only [Option.some.injEq] at h
    rw [← h]
  | succ rem ih =>
    intro a events r h
    unfold requestGo at h
    cases events with
    | nil => exact absurd h (by simp)
    | cons e es =>
      cases e with
      | resp status body =>
        dsimp only at h
        by_cases h200 : status = 200
        · rw [if_pos h200] at h
          simp only [Option.some.injEq] at h
          rw [← h]
          exact Nat.succ_le_succ (Nat.zero_le rem)
        · rw [if_neg h200] at h
          by_cases h429 : status = 429
          · rw [if_pos h429] at h
            cases hrec : requestGo url n rem (a + 1) es with
            | none => rw [hrec] at h; exact absurd h (by simp)
            | some r2 =>
              rw [hrec] at h
              simp only [Option.some.injEq] at h
              rw [← h]
              exact Nat.succ_le_succ (ih (a + 1) es r2 hrec)
          · rw [if_neg h429] at h
            by_cases h418 : status = 418
            · rw [if_pos h418] at h
              simp only [Option.some.injEq] at h
              rw [← h]
              exact Nat.succ_le_succ (Nat.zero_le rem)
            · rw [if_neg h418] at h
              simp only [Option.some.injEq] at h
              rw [← h]
              exact Nat.succ_le_succ (Nat.zero_le rem)
      | netErr msg =>
        dsimp only at h
        by_cases hfin : a = n - 1
        · rw [if_pos hfin] at h
          simp only [Option.some.injEq] at h
          rw [← h]
          exact Nat.succ_le_succ (Nat.zero_le rem)
        · rw [if_neg hfin] at h
          cases hrec : requestGo url n rem (a + 1) es with
          | none => rw [hrec] at h; exact absurd h (by simp)
          | some r2 =>
            rw [hrec] at h
            simp only [Option.some.injEq] at h
            rw [← h]
            exact Nat.succ_le_succ (ih (a + 1) es r2 hrec)

theorem requestGo_first_bad (url : String) (n : Nat) (s : Nat) (b : String)
    (hs200 : s ≠ 200) (hs429 : s ≠ 429) :
    ∀ (i rem a : Nat) (events : List HttpEvent),
      a + rem = n → i < rem →
      events.get? i = some (.resp s b) →
      (∀ j, j < i → ∀ e, events.get? j = some e →
        (∃ bb, e = .resp 429 bb) ∨ ∃ m, e = .netErr m) →
      requestGo url n rem a events =
        some ⟨.error (if s = 418 then s!"IP banned by Binance: {b}"
                      else s!"HTTP {s}: {b}"),
              i + 1, (List.range i).map fun j => 2 ^ (a + j + 1)⟩ := by
  intro i
  induction i with
  | zero =>
    intro rem a events hinv hlt hget _
    cases events with
    | nil => simp at hget
    | cons e es =>
      simp only [List.get?_cons_zero, Option.some.injEq] at hget
      subst hget
      cases rem with
      | zero => exact absurd hlt (by omega)
      | succ r =>
        unfold requestGo
        dsimp only
        rw [if_neg hs200, if_neg hs429]
        by_cases h418 : s = 418
        · simp [h418]
        · simp [h418]
  | succ i ih =>
    intro rem a events hinv hlt hget hpre
    cases events with
    | nil => simp at hget
    | cons e es =>
      rw [List.get?_cons_succ] at hget
      have he := hpre 0 (Nat.succ_pos i) e List.get?_cons_zero
      cases rem with
      | zero => exact absurd hlt (by omega)
      | succ r =>
        have hpre2 : ∀ j, j < i → ∀ e2, es.get? j = some e2 →
            (∃ bb, e2 = .resp 429 bb) ∨ ∃ m, e2 = .netErr m := by
          intro j hj e2 hg
          exact hpre (j + 1) (by omega) e2 (by rw [List.get?_cons_succ]; exact hg)
        have hrec := ih r (a + 1) es (by omega) (by omega) hget hpre2
        rcases he with ⟨bb, rfl⟩ | ⟨m, rfl⟩
        · unfold requestGo
          dsimp only
          rw [if_neg (by decide : (429 : Nat) ≠ 200), if_pos rfl, hrec]
          rw [backoffs_cons]
        · have hne : a ≠ n - 1 := by omega
          unfold requestGo
          dsimp only
          rw [if_neg hne, hrec]
          rw [backoffs_cons]

/-- C6: the first response whose status is neither 200 nor 429 aborts the
run at that very attempt — exactly `i + 1` requests are ever issued when
it arrives at attempt `i` — with `IP banned by Binance: <body>` for HTTP
418 and `HTTP <status>: <body>` (naming status and body) for every other
non-success status. -/
theorem c6_fatal_status_fail_fast :
    ∀ (url : String) (n : Nat) (events : List HttpEvent) (i s : Nat)
      (b : String),
      i < n →
      events.get? i = some (.resp s b) → s ≠ 200 → s ≠ 429 →
      (∀ j, j < i → ∀ e, events.get? j = some e →
        (∃ bb, e = .resp 429 bb) ∨ ∃ m, e = .netErr m) →
      requestRun n url events =
        some ⟨.error (if s = 418 then s!"IP banned by Binance: {b}"
                      else s!"HTTP {s}: {b}"),
              i + 1, (List.range i).map fun j => 2 ^ (j + 1)⟩ := by
  intro url n events i s b hin hget hs200 hs429 hpre
  unfold requestRun
  have h := requestGo_first_bad url n s b hs200 hs429 i n 0 events
    (by omega) hin hget hpre
  simpa using h

/-- C6 witness: HTTP 418 aborts on the very first attempt with the ban
message; an HTTP 500 arriving after one 429 aborts at its own attempt
with status and body in the message. -/
theorem c6_fatal_status_fail_fast_witness :
    requestRun 3 "u" [.resp 418 "banned"] =
      some ⟨.error "IP banned by Binance: banned", 1, []⟩ ∧
    requestRun 3 "u" [.resp 429 "r", .resp 500 "ISE"] =
      some ⟨.error "HTTP 500: ISE", 2, [2]⟩ := by
  constructor
  · have h := c6_fatal_status_fail_fast "u" 3 [.resp 418 "banned"] 0 418
      "banned" (by omega) rfl (by decide) (by decide)
      (fun j hj e hg => absurd hj (Nat.not_lt_zero j))
    simpa using h
  · have h := c6_fatal_status_fail_fast "u" 3 [.resp 429 "r", .resp 500 "ISE"]
      1 500 "ISE" (by omega) rfl (by decide) (by decide) ?_
    · simpa using h
    · intro j hj e hg
      have hj0 : j = 0 := by omega
      subst hj0
      simp only [List.get?_cons_zero, Option.some.injEq] at hg
      exact Or.inl ⟨"r", hg.symm⟩

theorem requestGo_all429 (url : String) (n : Nat) (b : String) :
    ∀ (k a : Nat),
      requestGo url n k a (List.replicate k (.resp 429 b)) =
        some ⟨.error s!"Max retries ({n}) exceeded for {url}", k,
          (List.range k).map fun j => 2 ^ (a + j + 1)⟩ := by
  intro k
  induction k with
  | zero => intro a; rfl
  | succ k ih =>
    intro a
    rw [List.replicate_succ]
    unfold requestGo
    dsimp only
    rw [if_neg (by decide : (429 : Nat) ≠ 200), if_pos rfl, ih (a + 1)]
    rw [backoffs_cons]

theorem requestGo_netFinal (url : String) (n : Nat) (b m : String) :
    ∀ (k a : Nat), a + k = n - 1 →
      requestGo url n (k + 1) a
          (List.replicate k (.resp 429 b) ++ [.netErr m]) =
        some ⟨.error s!"Request failed after {n} retries: {m}", k + 1,
          (List.range k).map fun j => 2 ^ (a + j + 1)⟩ := by
  intro k
  induction k with
  | zero =>
    intro a ha
    simp only [List.replicate_zero, List.nil_append]
    unfold requestGo
    dsimp only
    rw [if_pos (by omega : a = n - 1)]
    rfl
  | succ k ih =>
    intro a ha
    simp only [List.replicate_succ, List.cons_append]
    unfold requestGo
    dsimp only
    rw [if_neg (by decide : (429 : Nat) ≠ 200), if_pos rfl, ih (a + 1) (by omega)]
    rw [backoffs_cons]

/-- C5 counterexample: a 429 at attempt 0 is followed by a sleep of
`2 ** (0 + 1) = 2` seconds, not the claimed `2 ** 0 = 1`; and when the
budget is exhausted by a network error, the raised message carries the
attempt count but does NOT identify the URL. -/
theorem c5_backoff_counterexample :
    requestRun 3 "https://fapi.binance.com/fapi/v1/klines"
        [.resp 429 "slow", .resp 200 "[]"] = some ⟨.ok "[]", 2, [2]⟩ ∧
    (2 : Nat) ≠ 2 ^ (0 : Nat) ∧
    requestRun 1 "https://fapi.binance.com/fapi/v1/klines" [.netErr "boom"] =
      some ⟨.error "Request failed after 1 retries: boom", 1, []⟩ ∧
    strContains "Request failed after 1 retries: boom" "fapi.binance.com"
      = false :=
  ⟨rfl, by decide, rfl, by decide⟩

/-- C5 (amended): `_request` makes at most `maxRetries` attempts; an
HTTP 429 at attempt `a` (0-based) waits `2 ** (a + 1)` seconds, the
attempt counting toward the shared budget; exhausting the budget on rate
limits raises one error naming the URL and the attempt count; and a
network error on the final attempt raises an error naming the attempt
count and the exception (without the URL). -/
theorem c5_transport_retry_amended :
    (∀ (n : Nat) (url : String) (events : List HttpEvent) (r : RunResult),
      requestRun n url events = some r → r.requests ≤ n) ∧
    (∀ (n : Nat) (url b : String),
      requestRun n url (List.replicate n (.resp 429 b)) =
        some ⟨.error s!"Max retries ({n}) exceeded for {url}", n,
          (List.range n).map fun a => 2 ^ (a + 1)⟩) ∧
    (∀ (n : Nat) (url b m : String), 0 < n →
      requestRun n url (List.replicate (n - 1) (.resp 429 b) ++ [.netErr m]) =
        some ⟨.error s!"Request failed after {n} retries: {m}", n,
          (List.range (n - 1)).map fun a => 2 ^ (a + 1)⟩) := by
  refine ⟨?_, ?_, ?_⟩
  · intro n url events r h
    exact requestGo_requests_le url n n 0 events r h
  · intro n url b
    have h := requestGo_all429 url n b n 0
    unfold requestRun
    simpa using h
  · intro n url b m hn
    have h := requestGo_netFinal url n b m (n - 1) 0 (by omega)
    unfold requestRun
    have hrem : n - 1 + 1 = n := by omega
    rw [hrem] at h
    simpa using h

/-- C5 witness: the amended transport behaviour at `maxRetries = 3` — an
exhausted 429 run waits 2, 4, 8 seconds and names URL and count; a final
network error names the count. -/
theorem c5_transport_retry_amended_witness :
    (∃ r, requestRun 2 "u" [.netErr "x", .resp 200 "ok"] = some r ∧
      r.requests ≤ 2) ∧
    requestRun 3 "u" (List.replicate 3 (.resp 429 "r")) =
      some ⟨.error "Max retries (3) exceeded for u", 3, [2, 4, 8]⟩ ∧
    requestRun 3 "u" (List.replicate 2 (.resp 429 "r") ++ [.netErr "boom"]) =
      some ⟨.error "Request failed after 3 retries: boom", 3, [2, 4]⟩ := by
  refine ⟨⟨⟨.ok "ok", 2, [2]⟩, rfl,
    c5_transport_retry_amended.1 2 "u" [.netErr "x", .resp 200 "ok"] _ rfl⟩,
    ?_, ?_⟩
  · exact c5_transport_retry_amended.2.1 3 "u" "r"
  · exact c5_transport_retry_amended.2.2 3 "u" "r" "boom" (by omega)

/-! ## Claim C8: the time-conversion utility -/

/-- C8 counterexample: `"2024-1-5"` matches neither literal shape
`YYYY-MM-DD` nor `YYYY-MM-DD HH:MM:SS` (month and day are not
zero-padded), yet `to_milliseconds` parses it — CPython `strptime`
accepts one-digit `%m`/`%d` — and returns the epoch of 2024-01-05
instead of raising the claimed parse error. -/
theorem c8_format_counterexample :
    spec_matches_date "2024-1-5" = false ∧
    spec_matches_datetime "2024-1-5" = false ∧
    to_milliseconds (.str "2024-1-5") = .ok 1704412800000 :=
  ⟨by decide, by decide, rfl⟩

/-- C8 (amended): `to_milliseconds` returns the integer value of an int
or float input (floats truncated toward zero); parses a string as UTC by
trying `%Y-%m-%d %H:%M:%S` and then `%Y-%m-%d` under CPython `strptime`
semantics, where month, day, hour, minute and second may be one or two
digits, the date and time are separated by any non-empty whitespace run
(format whitespace compiles to `\s+`) and the fields must form a valid
calendar date-time, and raises the descriptive `ValueError` exactly when
both formats fail; treats a timezone-naive datetime as UTC (an aware one
via its own offset); and raises a `TypeError` naming the type for every
other input. -/
theorem c8_to_milliseconds_amended :
    (∀ n : Int, to_milliseconds (.int n) = .ok n) ∧
    (∀ q : Rat, to_milliseconds (.float q) = .ok (ratTrunc q)) ∧
    (∀ s t, strptime_datetime_utc s = some t →
      to_milliseconds (.str s) = .ok t.epochMs) ∧
    (∀ s t, strptime_datetime_utc s = none → strptime_date_utc s = some t →
      to_milliseconds (.str s) = .ok t.epochMs) ∧
    (∀ s, strptime_datetime_utc s = none → strptime_date_utc s = none →
      to_milliseconds (.str s) =
        .error (.valueError ("Unsupported datetime format: \x27" ++ s ++
          "\x27. Use \x27YYYY-MM-DD\x27 or \x27YYYY-MM-DD HH:MM:SS\x27"))) ∧
    (∀ t : PyDateTime, t.utcOffsetMin = none →
      to_milliseconds (.datetime t) =
        .ok (PyDateTime.epochMs { t with utcOffsetMin := some 0 })) ∧
    (∀ (t : PyDateTime) (off : Int), t.utcOffsetMin = some off →
      to_milliseconds (.datetime t) = .ok t.epochMs) ∧
    (∀ tn, to_milliseconds (.other tn) =
      .error (.typeError ("Cannot convert " ++ tn ++ " to timestamp"))) := by
  refine ⟨fun _ => rfl, fun _ => rfl, ?_, ?_, ?_, ?_, ?_, fun _ => rfl⟩
  · intro s t h
    unfold to_milliseconds
    dsimp only
    rw [h]
  · intro s t h1 h2
    unfold to_milliseconds
    dsimp only
    rw [h1, h2]
  · intro s h1 h2
    unfold to_milliseconds
    dsimp only
    rw [h1, h2]
  · intro t h
    unfold to_milliseconds
    dsimp only
    simp [h]
  · intro t off h
    unfold to_milliseconds
    dsimp only
    simp [h]

/-- C8 witness: every case of the amended behaviour at a concrete input,
with the calendar arithmetic evaluated. -/
theorem c8_to_milliseconds_amended_witness :
    to_milliseconds (.int 1700000000000) = .ok 1700000000000 ∧
    to_milliseconds (.float (1700000000000.5 : Rat)) =
      .ok (ratTrunc (1700000000000.5 : Rat)) ∧
    ratTrunc (1700000000000.5 : Rat) = 1700000000000 ∧
    to_milliseconds (.str "2024-01-01 12:30:00") =
      .ok (PyDateTime.epochMs ⟨2024, 1, 1, 12, 30, 0, some 0⟩) ∧
    to_milliseconds (.str "2024-01-01\t12:30:00") =
      .ok (PyDateTime.epochMs ⟨2024, 1, 1, 12, 30, 0, some 0⟩) ∧
    to_milliseconds (.str "2024-01-01  12:30:00") =
      .ok (PyDateTime.epochMs ⟨2024, 1, 1, 12, 30, 0, some 0⟩) ∧
    to_milliseconds (.str "2024-01-0112:30:00") =
      .error (.valueError ("Unsupported datetime format: " ++
        "\x272024-01-0112:30:00\x27. " ++
        "Use \x27YYYY-MM-DD\x27 or \x27YYYY-MM-DD HH:MM:SS\x27")) ∧
    PyDateTime.epochMs ⟨2024, 1, 1, 12, 30, 0, some 0⟩ = 1704112200000 ∧
    to_milliseconds (.str "2024-01-01") =
      .ok (PyDateTime.epochMs ⟨2024, 1, 1, 0, 0, 0, some 0⟩) ∧
    PyDateTime.epochMs ⟨2024, 1, 1, 0, 0, 0, some 0⟩ = 1704067200000 ∧
    to_milliseconds (.str "not-a-date") =
      .error (.valueError ("Unsupported datetime format: \x27not-a-date\x27. " ++
        "Use \x27YYYY-MM-DD\x27 or \x27YYYY-MM-DD HH:MM:SS\x27")) ∧
    to_milliseconds (.datetime ⟨2024, 6, 15, 10, 0, 0, none⟩) =
      .ok (PyDateTime.epochMs ⟨2024, 6, 15, 10, 0, 0, some 0⟩) ∧
    PyDateTime.epochMs ⟨2024, 6, 15, 10, 0, 0, some 0⟩ = 1718445600000 ∧
    to_milliseconds (.datetime ⟨2024, 6, 15, 10, 0, 0, some 540⟩) =
      .ok (PyDateTime.epochMs ⟨2024, 6, 15, 10, 0, 0, some 540⟩) ∧
    PyDateTime.epochMs ⟨2024, 6, 15, 10, 0, 0, some 540⟩ = 1718413200000 ∧
    to_milliseconds (.other "list") =
      .error (.typeError "Cannot convert list to timestamp") :=
  ⟨c8_to_milliseconds_amended.1 1700000000000,
   c8_to_milliseconds_amended.2.1 (1700000000000.5 : Rat),
   by norm_num [ratTrunc],
   c8_to_milliseconds_amended.2.2.1 "2024-01-01 12:30:00"
     ⟨2024, 1, 1, 12, 30, 0, some 0⟩ rfl,
   c8_to_milliseconds_amended.2.2.1 "2024-01-01\t12:30:00"
     ⟨2024, 1, 1, 12, 30, 0, some 0⟩ rfl,
   c8_to_milliseconds_amended.2.2.1 "2024-01-01  12:30:00"
     ⟨2024, 1, 1, 12, 30, 0, some 0⟩ rfl,
   c8_to_milliseconds_amended.2.2.2.2.1 "2024-01-0112:30:00" rfl rfl,
   by rfl,
   c8_to_milliseconds_amended.2.2.2.1 "2024-01-01"
     ⟨2024, 1, 1, 0, 0, 0, some 0⟩ rfl rfl,
   by rfl,
   c8_to_milliseconds_amended.2.2.2.2.1 "not-a-date" rfl rfl,
   c8_to_milliseconds_amended.2.2.2.2.2.1 ⟨2024, 6, 15, 10, 0, 0, none⟩ rfl,
   by rfl,
   c8_to_milliseconds_amended.2.2.2.2.2.2.1 ⟨2024, 6, 15, 10, 0, 0, some 540⟩
     540 rfl,
   by rfl,
   c8_to_milliseconds_amended.2.2.2.2.2.2.2 "list"⟩
